import Mathlib

/-!
The libgit2dart platform plugins (Linux and Windows).

A shallow embedding of the two method-call handlers of the plugin,
`libgit2dart_plugin_handle_method_call` (src/linux/libgit2dart_plugin.cc) and
`Libgit2dartPlugin::HandleMethodCall` (src/windows/libgit2dart_plugin.cpp),
together with the library routines they call, followed by the properties
the specification states about them.

Conventions.
* A byte (`char`, `gchar`) is a natural number.
* A `const char*` is the list of the bytes stored from the pointer on, in
  address order. Reading stops at the first NUL byte; the byte after the last
  listed one is a NUL.
* A `std::string` is the list of its bytes (it has a length of its own and may
  hold any byte).
* What a handler sends back is recorded in a list, in the order of sending.
-/

set_option linter.unusedVariables false

namespace Libgit2dart

/-! ## Bytes of the string literals of the source -/

/-- Bytes of an ASCII string literal, one per character. -/
def bytes (s : String) : List Nat := s.toList.map Char.toNat

/-! ## C strings -/

/-- The byte a `const char*` points at: the head of the buffer, or the
terminating NUL when the buffer is exhausted. -/
def deref : List Nat → Nat
  | [] => 0
  | c :: _ => c

/-- The string a `const char*` denotes: the bytes before the first NUL. -/
def c_str : List Nat → List Nat
  | [] => []
  | c :: s => if c = 0 then [] else c :: c_str s

/-- `strlen`: the number of bytes before the first NUL. -/
def strlen : List Nat → Nat
  | [] => 0
  | c :: s => if c = 0 then 0 else strlen s + 1

/-- `strcmp`: walk both strings while the byte of the first is not NUL and
equals the byte of the second, then return the difference of the two bytes
reached (as `unsigned char`). -/
def strcmp : List Nat → List Nat → Int
  | [], s2 => (0 : Int) - (deref s2 : Int)
  | c1 :: s1, s2 =>
    if c1 ≠ 0 ∧ c1 = deref s2 then strcmp s1 s2.tail
    else (c1 : Int) - (deref s2 : Int)

/-- `g_strdup_printf` for the conversions the plugin uses: `%s` (bytes 37,
115) inserts the next argument as a C string, `%%` a percent sign, every other
byte of the format is copied. The format is itself a C string. -/
def g_strdup_printf : List Nat → List (List Nat) → List Nat
  | [], _ => []
  | 0 :: _, _ => []
  | 37 :: 115 :: rest, a :: more => c_str a ++ g_strdup_printf rest more
  | 37 :: 37 :: rest, args => 37 :: g_strdup_printf rest args
  | c :: fmt, args => c :: g_strdup_printf fmt args

/-! ## Linux: src/linux/libgit2dart_plugin.cc -/

namespace Linux

/-- Length of each field of `struct utsname` (`_UTSNAME_LENGTH`). -/
def UTSNAME_LENGTH : Nat := 65

/-- The `struct utsname` of `<sys/utsname.h>`: six `char` arrays laid out one
after the other in this order. -/
structure utsname where
  sysname : List Nat
  nodename : List Nat
  release : List Nat
  version : List Nat
  machine : List Nat
  domainname : List Nat
  deriving DecidableEq, Repr

/-- The value of `struct utsname uname_data = {}`: every byte is zero. -/
def utsname.zero : utsname :=
  { sysname := List.replicate UTSNAME_LENGTH 0
    nodename := List.replicate UTSNAME_LENGTH 0
    release := List.replicate UTSNAME_LENGTH 0
    version := List.replicate UTSNAME_LENGTH 0
    machine := List.replicate UTSNAME_LENGTH 0
    domainname := List.replicate UTSNAME_LENGTH 0 }

/-- The pointer `uname_data.version` (the array decays to `char*`): the bytes
stored from the start of the `version` field to the end of the struct. -/
def utsname.version_ptr (u : utsname) : List Nat :=
  u.version ++ (u.machine ++ u.domainname)

/-- The system call `uname`: from the struct it is handed, its return value
and the struct as it leaves it. The handler is parametric in it. -/
abbrev Uname := utsname → Int × utsname

/-- A `uname` that fails and writes nothing. -/
def uname_failed : Uname := fun u => (-1, u)

/-- A `uname` that succeeds on a host whose kernel version string is
`#1 SMP`; the fields it fills are NUL-padded to their full length. -/
def uname_sample : Uname := fun u =>
  (0, { u with
    sysname := bytes "Linux" ++ List.replicate 60 0
    version := bytes "#1 SMP" ++ List.replicate 59 0 })

/-- Values carried over the channel (`FlValue`). -/
inductive FlValue where
  | null
  | bool (b : Bool)
  | int (i : Int)
  | string (s : List Nat)
  deriving DecidableEq, Repr

/-- The three kinds of `FlMethodResponse`. -/
inductive FlMethodResponse where
  | success (result : FlValue)
  | error (code : List Nat) (message : List Nat) (details : FlValue)
  | not_implemented
  deriving DecidableEq, Repr

/-- A method call received from Flutter: its name and its arguments. -/
structure FlMethodCall where
  name : List Nat
  args : FlValue
  deriving DecidableEq, Repr

/-- The part of `GObject` that changes over an object's life. -/
structure GObject where
  ref_count : Nat
  deriving DecidableEq, Repr

/-- The `struct _Libgit2dartPlugin`: nothing but its parent instance. -/
structure Libgit2dartPlugin where
  parent_instance : GObject
  deriving DecidableEq, Repr

/-- `fl_method_call_get_name`: pointer to the name of the call. -/
def fl_method_call_get_name (method_call : FlMethodCall) : List Nat :=
  method_call.name

/-- `fl_value_new_string`: a string value holding a copy of a C string. -/
def fl_value_new_string (value : List Nat) : FlValue :=
  FlValue.string (c_str value)

/-- `fl_method_success_response_new`. -/
def fl_method_success_response_new (result : FlValue) : FlMethodResponse :=
  FlMethodResponse.success result

/-- `fl_method_not_implemented_response_new`. -/
def fl_method_not_implemented_response_new : FlMethodResponse :=
  FlMethodResponse.not_implemented

/-- `fl_method_call_respond`: the responses sent for the call. A null
response is rejected and nothing is sent. -/
def fl_method_call_respond (_method_call : FlMethodCall)
    (response : Option FlMethodResponse) : List FlMethodResponse :=
  match response with
  | none => []
  | some r => [r]

/-- `libgit2dart_plugin_handle_method_call`: called when a method call is
received from Flutter. Returns the plugin object as the handler leaves it and
the responses it sent. -/
def libgit2dart_plugin_handle_method_call (uname : Uname)
    (self : Libgit2dartPlugin) (method_call : FlMethodCall) :
    Libgit2dartPlugin × List FlMethodResponse :=
  let response : Option FlMethodResponse := none
  let method := fl_method_call_get_name method_call
  let response : Option FlMethodResponse :=
    if strcmp method (bytes "getPlatformVersion") = 0 then
      let uname_data : utsname := utsname.zero
      let uname_data : utsname := (uname uname_data).2
      let version := g_strdup_printf (bytes "Linux %s") [uname_data.version_ptr]
      let result := fl_value_new_string version
      some (fl_method_success_response_new result)
    else
      some fl_method_not_implemented_response_new
  (self, fl_method_call_respond method_call response)

/-- `method_call_cb`: the callback registered on the channel; `user_data` is
the plugin object. -/
def method_call_cb (uname : Uname) (method_call : FlMethodCall)
    (user_data : Libgit2dartPlugin) : Libgit2dartPlugin × List FlMethodResponse :=
  let plugin := user_data
  libgit2dart_plugin_handle_method_call uname plugin method_call

/-- The channel `"libgit2dart"` after registration: each incoming call, with
the `uname` in force when it arrives, goes to `method_call_cb` with the one
plugin object; the result lists what was sent for each call, in order. -/
def channel_run : Libgit2dartPlugin → List (Uname × FlMethodCall) →
    List (List FlMethodResponse)
  | _, [] => []
  | plugin, (uname, method_call) :: rest =>
    let r := method_call_cb uname method_call plugin
    r.2 :: channel_run r.1 rest

end Linux

/-! ## Windows: src/windows/libgit2dart_plugin.cpp -/

namespace Windows

/-- `std::char_traits<char>::compare`: compare the first `n` bytes of two
arrays; negative, zero or positive. -/
def char_traits_compare : List Nat → List Nat → Nat → Int
  | _, _, 0 => 0
  | [], _, _ + 1 => 0
  | _ :: _, [], _ + 1 => 0
  | a :: s1, b :: s2, n + 1 =>
    if a < b then -1 else if b < a then 1 else char_traits_compare s1 s2 n

/-- `std::string::compare(const char* s)`: compare the common length with
`char_traits::compare`; when that is zero the result is the difference of the
lengths. The length of `s` is `char_traits::length`, that is `strlen`. -/
def compare (self : List Nat) (s : List Nat) : Int :=
  let size := self.length
  let osize := strlen s
  let len := min size osize
  let r := char_traits_compare self s len
  if r ≠ 0 then r else (size : Int) - (osize : Int)

/-- A `std::ostringstream`, by the bytes written to it so far. -/
structure ostringstream where
  str : List Nat
  deriving DecidableEq, Repr

/-- The `operator<<` of a stream for a `const char*`: append the C string. -/
def ostringstream.shl (os : ostringstream) (s : List Nat) : ostringstream :=
  { str := os.str ++ c_str s }

/-- Values carried over the channel (`flutter::EncodableValue`). -/
inductive EncodableValue where
  | null
  | bool (b : Bool)
  | int (i : Int)
  | string (s : List Nat)
  deriving DecidableEq, Repr

/-- A `flutter::MethodCall`: method name and arguments. -/
structure MethodCall where
  method_name : List Nat
  arguments : EncodableValue
  deriving DecidableEq, Repr

/-- What can be reported through a `flutter::MethodResult`. -/
inductive Reply where
  | Success (value : EncodableValue)
  | Error (code : List Nat) (message : List Nat) (details : EncodableValue)
  | NotImplemented
  deriving DecidableEq, Repr

/-- A `flutter::MethodResult`, by the replies made through it so far. -/
structure MethodResult where
  replies : List Reply
  deriving DecidableEq, Repr

/-- The result object the channel hands to the handler of a new call. -/
def MethodResult.fresh : MethodResult := { replies := [] }

/-- `MethodResult::Success`. -/
def MethodResult.Success (result : MethodResult) (value : EncodableValue) : MethodResult :=
  { replies := result.replies ++ [Reply.Success value] }

/-- `MethodResult::NotImplemented`. -/
def MethodResult.NotImplemented (result : MethodResult) : MethodResult :=
  { replies := result.replies ++ [Reply.NotImplemented] }

/-- The answers of the three predicates of `<VersionHelpers.h>` on the host. -/
structure VersionHelpers where
  IsWindows10OrGreater : Bool
  IsWindows8OrGreater : Bool
  IsWindows7OrGreater : Bool
  deriving DecidableEq, Repr

/-- The class `Libgit2dartPlugin`: it has no data members. -/
structure Libgit2dartPlugin where
  deriving DecidableEq, Repr

/-- `Libgit2dartPlugin::HandleMethodCall`: called when a method is called on
this plugin's channel from Dart. Returns the plugin object as the handler
leaves it and the result object after the handler has used it. -/
def HandleMethodCall (host : VersionHelpers) (this : Libgit2dartPlugin)
    (method_call : MethodCall) (result : MethodResult) :
    Libgit2dartPlugin × MethodResult :=
  if compare method_call.method_name (bytes "getPlatformVersion") = 0 then
    let version_stream : ostringstream := { str := [] }
    let version_stream := version_stream.shl (bytes "Windows ")
    let version_stream :=
      if host.IsWindows10OrGreater then version_stream.shl (bytes "10+")
      else if host.IsWindows8OrGreater then version_stream.shl (bytes "8")
      else if host.IsWindows7OrGreater then version_stream.shl (bytes "7")
      else version_stream
    (this, result.Success (EncodableValue.string version_stream.str))
  else
    (this, result.NotImplemented)

/-- The channel `"libgit2dart"` after `RegisterWithRegistrar`: each incoming
call, with the host answers in force when it arrives, goes to
`HandleMethodCall` on the one plugin object with a result object of its own;
the result lists the replies made for each call, in order. -/
def channel_run : Libgit2dartPlugin → List (VersionHelpers × MethodCall) →
    List (List Reply)
  | _, [] => []
  | plugin_pointer, (host, call) :: rest =>
    let r := HandleMethodCall host plugin_pointer call MethodResult.fresh
    r.2.replies :: channel_run r.1 rest

end Windows

/-! ## Lemmas on the library routines -/

/-- The bytes of the one method name both handlers know. -/
theorem bytes_getPlatformVersion :
    bytes "getPlatformVersion" =
      [103, 101, 116, 80, 108, 97, 116, 102, 111, 114, 109, 86, 101, 114, 115, 105, 111, 110] := by
  decide

theorem c_str_of_nul_free (m : List Nat) (hm : ∀ b ∈ m, b ≠ 0) : c_str m = m := by
  induction m with
  | nil => rfl
  | cons c s ih =>
    have hc : c ≠ 0 := hm c (List.mem_cons_self c s)
    have hs : ∀ b ∈ s, b ≠ 0 := fun b hb => hm b (List.mem_cons_of_mem c hb)
    simp [c_str, hc, ih hs]

theorem c_str_append_nul (v rest : List Nat) (hv : ∀ b ∈ v, b ≠ 0) :
    c_str (v ++ 0 :: rest) = v := by
  induction v with
  | nil => simp [c_str]
  | cons c s ih =>
    have hc : c ≠ 0 := hv c (List.mem_cons_self c s)
    have hs : ∀ b ∈ s, b ≠ 0 := fun b hb => hv b (List.mem_cons_of_mem c hb)
    simp [c_str, hc, ih hs]

theorem c_str_nul_free (s : List Nat) : ∀ b ∈ c_str s, b ≠ 0 := by
  induction s with
  | nil => simp [c_str]
  | cons c s ih =>
    by_cases hc : c = 0
    · simp [c_str, hc]
    · intro b hb
      simp only [c_str, hc, if_false, List.mem_cons] at hb
      rcases hb with rfl | hb
      · exact hc
      · exact ih b hb

theorem c_str_idem (s : List Nat) : c_str (c_str s) = c_str s :=
  c_str_of_nul_free _ (c_str_nul_free s)

theorem strlen_eq_length_c_str (s : List Nat) : strlen s = (c_str s).length := by
  induction s with
  | nil => rfl
  | cons c s ih =>
    by_cases hc : c = 0
    · simp [strlen, c_str, hc]
    · simp [strlen, c_str, hc, ih]

theorem strlen_le_length (s : List Nat) : strlen s ≤ s.length := by
  induction s with
  | nil => simp [strlen]
  | cons c s ih =>
    by_cases hc : c = 0
    · simp [strlen, hc]
    · simp [strlen, hc, ih]

theorem take_strlen (s : List Nat) : s.take (strlen s) = c_str s := by
  induction s with
  | nil => simp [strlen, c_str]
  | cons c s ih =>
    by_cases hc : c = 0
    · simp [strlen, c_str, hc]
    · simp [strlen, c_str, hc, ih]

theorem c_str_eq_nil_iff (s : List Nat) : c_str s = [] ↔ deref s = 0 := by
  cases s with
  | nil => simp [c_str, deref]
  | cons c s =>
    by_cases hc : c = 0
    · simp [c_str, deref, hc]
    · simp [c_str, deref, hc]

/-- The comparison `strcmp a b == 0` holds exactly when the two pointers denote
the same string. -/
theorem strcmp_eq_zero_iff (a b : List Nat) : strcmp a b = 0 ↔ c_str a = c_str b := by
  induction a generalizing b with
  | nil =>
    have h := c_str_eq_nil_iff b
    simp only [strcmp, c_str]
    constructor
    · intro h0
      have : deref b = 0 := by omega
      exact (h.2 this).symm
    · intro h0
      have : deref b = 0 := h.1 h0.symm
      omega
  | cons c1 s1 ih =>
    cases b with
    | nil =>
      by_cases hc : c1 = 0
      · simp [strcmp, c_str, deref, hc]
      · simp [strcmp, c_str, deref, hc]
    | cons c2 s2 =>
      by_cases hc : c1 = 0
      · subst hc
        by_cases hc2 : c2 = 0
        · simp [strcmp, c_str, deref, hc2]
        · simp [strcmp, c_str, deref, hc2]
      · by_cases heq : c1 = c2
        · subst heq
          simp [strcmp, c_str, deref, hc, ih s2]
        · have hne : ¬ ((c1 : Int) - (c2 : Int) = 0) := by omega
          by_cases hc2 : c2 = 0
          · simp [strcmp, c_str, deref, hc, heq, hc2]
          · simp [strcmp, c_str, deref, hc, heq, hc2, hne]

theorem getPlatformVersion_nul_free : ∀ b ∈ bytes "getPlatformVersion", b ≠ 0 := by
  decide

namespace Windows

theorem char_traits_compare_eq_zero_iff (a b : List Nat) (n : Nat)
    (ha : n ≤ a.length) (hb : n ≤ b.length) :
    char_traits_compare a b n = 0 ↔ a.take n = b.take n := by
  induction n generalizing a b with
  | zero => simp [char_traits_compare]
  | succ n ih =>
    cases a with
    | nil => simp at ha
    | cons x s1 =>
      cases b with
      | nil => simp at hb
      | cons y s2 =>
        have ha1 : n ≤ s1.length := by simpa using ha
        have hb1 : n ≤ s2.length := by simpa using hb
        simp only [char_traits_compare, List.take_succ_cons, List.cons.injEq]
        by_cases h1 : x < y
        · simp [h1]; omega
        · by_cases h2 : y < x
          · simp [h1, h2]; omega
          · have hxy : x = y := by omega
            simp [h1, h2, hxy, ih s1 s2 ha1 hb1]

/-- The comparison `self.compare(s) == 0` holds exactly when the `std::string`
holds the bytes of the C string `s`. -/
theorem compare_eq_zero_iff (self s : List Nat) : compare self s = 0 ↔ self = c_str s := by
  have hlen : strlen s ≤ s.length := strlen_le_length s
  have htake : s.take (strlen s) = c_str s := take_strlen s
  unfold compare
  simp only []
  constructor
  · intro h
    by_cases hr : char_traits_compare self s (min self.length (strlen s)) = 0
    · rw [if_neg (by simpa using hr)] at h
      have hsz : self.length = strlen s := by omega
      rw [hsz, Nat.min_self] at hr
      have := (char_traits_compare_eq_zero_iff self s (strlen s) (by omega) hlen).1 hr
      rw [htake, ← hsz, List.take_length] at this
      exact this
    · rw [if_pos hr] at h
      exact absurd h hr
  · intro h
    have hsz : self.length = strlen s := by
      rw [h, strlen_eq_length_c_str]
    have hr : char_traits_compare self s (min self.length (strlen s)) = 0 := by
      rw [hsz, Nat.min_self]
      apply (char_traits_compare_eq_zero_iff self s (strlen s) (by omega) hlen).2
      rw [htake, ← hsz, List.take_length, h]
    rw [if_neg (by simpa using hr)]
    omega

end Windows

theorem c_str_getPlatformVersion :
    c_str (bytes "getPlatformVersion") = bytes "getPlatformVersion" :=
  c_str_of_nul_free _ getPlatformVersion_nul_free

/-! ## The two handlers, branch by branch -/

namespace Linux

/-- The branch taken when `strcmp` returns zero. -/
theorem linux_handle_version (uname : Uname) (self : Libgit2dartPlugin) (c : FlMethodCall)
    (h : c_str c.name = bytes "getPlatformVersion") :
    libgit2dart_plugin_handle_method_call uname self c =
      (self, [FlMethodResponse.success (FlValue.string
        (bytes "Linux " ++ c_str (uname utsname.zero).2.version_ptr))]) := by
  have hcmp : strcmp c.name (bytes "getPlatformVersion") = 0 := by
    rw [strcmp_eq_zero_iff, c_str_getPlatformVersion]
    exact h
  have hnf := c_str_nul_free (uname utsname.zero).2.version_ptr
  have hidem := c_str_idem (uname utsname.zero).2.version_ptr
  simp only [libgit2dart_plugin_handle_method_call, fl_method_call_get_name, hcmp, if_true,
    fl_method_call_respond, fl_method_success_response_new, fl_value_new_string]
  simp [bytes, g_strdup_printf, c_str, hidem]

/-- The branch taken when `strcmp` returns a nonzero value. -/
theorem linux_handle_other (uname : Uname) (self : Libgit2dartPlugin) (c : FlMethodCall)
    (h : c_str c.name ≠ bytes "getPlatformVersion") :
    libgit2dart_plugin_handle_method_call uname self c =
      (self, [FlMethodResponse.not_implemented]) := by
  have hcmp : ¬ strcmp c.name (bytes "getPlatformVersion") = 0 := by
    rw [strcmp_eq_zero_iff, c_str_getPlatformVersion]
    exact h
  simp only [libgit2dart_plugin_handle_method_call, fl_method_call_get_name, hcmp, if_false,
    fl_method_call_respond, fl_method_not_implemented_response_new]

/-- The handler sees of the name buffer only the string before its first NUL. -/
theorem handle_reads_c_str (uname : Uname) (self : Libgit2dartPlugin) (c : FlMethodCall) :
    libgit2dart_plugin_handle_method_call uname self c =
      libgit2dart_plugin_handle_method_call uname self { name := c_str c.name, args := c.args } := by
  by_cases h : c_str c.name = bytes "getPlatformVersion"
  · rw [linux_handle_version uname self c h,
      linux_handle_version uname self { name := c_str c.name, args := c.args }
        (by rw [c_str_idem]; exact h)]
  · rw [linux_handle_other uname self c h,
      linux_handle_other uname self { name := c_str c.name, args := c.args }
        (by rw [c_str_idem]; exact h)]

/-- The channel hands every call to the handler with the same plugin object. -/
theorem linux_channel_run_eq_map (plugin : Libgit2dartPlugin) (calls : List (Uname × FlMethodCall)) :
    channel_run plugin calls =
      calls.map (fun uc => (libgit2dart_plugin_handle_method_call uc.1 plugin uc.2).2) := by
  induction calls with
  | nil => rfl
  | cons uc rest ih =>
    obtain ⟨u, c⟩ := uc
    have hself : (libgit2dart_plugin_handle_method_call u plugin c).1 = plugin := by
      by_cases h : c_str c.name = bytes "getPlatformVersion"
      · rw [linux_handle_version u plugin c h]
      · rw [linux_handle_other u plugin c h]
    simp only [channel_run, method_call_cb, hself, ih, List.map_cons]

end Linux

namespace Windows

/-- The string the version branch builds in `version_stream`. -/
theorem version_stream_str (host : VersionHelpers) :
    (if host.IsWindows10OrGreater then
        (ostringstream.shl (ostringstream.shl { str := [] } (bytes "Windows ")) (bytes "10+"))
      else if host.IsWindows8OrGreater then
        (ostringstream.shl (ostringstream.shl { str := [] } (bytes "Windows ")) (bytes "8"))
      else if host.IsWindows7OrGreater then
        (ostringstream.shl (ostringstream.shl { str := [] } (bytes "Windows ")) (bytes "7"))
      else ostringstream.shl { str := [] } (bytes "Windows ")).str =
    (if host.IsWindows10OrGreater then bytes "Windows 10+"
      else if host.IsWindows8OrGreater then bytes "Windows 8"
      else if host.IsWindows7OrGreater then bytes "Windows 7"
      else bytes "Windows ") := by
  obtain ⟨w10, w8, w7⟩ := host
  cases w10 <;> cases w8 <;> cases w7 <;> decide

/-- The branch taken when `compare` returns zero. -/
theorem windows_handle_version (host : VersionHelpers) (this : Libgit2dartPlugin) (c : MethodCall)
    (result : MethodResult) (h : c.method_name = bytes "getPlatformVersion") :
    HandleMethodCall host this c result =
      (this, { replies := result.replies ++ [Reply.Success (EncodableValue.string
        (if host.IsWindows10OrGreater then bytes "Windows 10+"
         else if host.IsWindows8OrGreater then bytes "Windows 8"
         else if host.IsWindows7OrGreater then bytes "Windows 7"
         else bytes "Windows "))] }) := by
  have hcmp : compare c.method_name (bytes "getPlatformVersion") = 0 := by
    rw [compare_eq_zero_iff, c_str_getPlatformVersion]
    exact h
  simp only [HandleMethodCall, hcmp, if_true, MethodResult.Success, version_stream_str]

/-- The branch taken when `compare` returns a nonzero value. -/
theorem windows_handle_other (host : VersionHelpers) (this : Libgit2dartPlugin) (c : MethodCall)
    (result : MethodResult) (h : c.method_name ≠ bytes "getPlatformVersion") :
    HandleMethodCall host this c result =
      (this, { replies := result.replies ++ [Reply.NotImplemented] }) := by
  have hcmp : ¬ compare c.method_name (bytes "getPlatformVersion") = 0 := by
    rw [compare_eq_zero_iff, c_str_getPlatformVersion]
    exact h
  simp only [HandleMethodCall, hcmp, if_false, MethodResult.NotImplemented]

/-- The channel hands every call to the handler with a result object of its own. -/
theorem windows_channel_run_eq_map (plugin : Libgit2dartPlugin)
    (calls : List (VersionHelpers × MethodCall)) :
    channel_run plugin calls =
      calls.map (fun hc => (HandleMethodCall hc.1 plugin hc.2 MethodResult.fresh).2.replies) := by
  induction calls with
  | nil => rfl
  | cons hc rest ih =>
    simp only [channel_run, ih, List.map_cons]

end Windows

/-! ## Properties of the specification -/

/-- C1, amended: for every method name `m`, the Windows handler answers
not-implemented exactly when `m` is not the string `"getPlatformVersion"`, and
the Linux handler exactly when the string its name pointer denotes (the bytes
of `m` before its first NUL) is not `"getPlatformVersion"`. For a name with no
NUL byte inside the Linux handler therefore answers not-implemented exactly
when `m` is not `"getPlatformVersion"`, and the two handlers classify `m` the
same way. -/
theorem not_implemented_iff_other_name (m : List Nat)
    (uname : Linux.Uname) (self : Linux.Libgit2dartPlugin) (args : Linux.FlValue)
    (host : Windows.VersionHelpers) (this : Windows.Libgit2dartPlugin)
    (arguments : Windows.EncodableValue) :
    ((Windows.HandleMethodCall host this { method_name := m, arguments := arguments }
        Windows.MethodResult.fresh).2.replies = [Windows.Reply.NotImplemented]
      ↔ m ≠ bytes "getPlatformVersion") ∧
    ((Linux.libgit2dart_plugin_handle_method_call uname self
        { name := m, args := args }).2 = [Linux.FlMethodResponse.not_implemented]
      ↔ c_str m ≠ bytes "getPlatformVersion") ∧
    ((∀ b ∈ m, b ≠ 0) →
      ((Linux.libgit2dart_plugin_handle_method_call uname self
          { name := m, args := args }).2 = [Linux.FlMethodResponse.not_implemented]
        ↔ m ≠ bytes "getPlatformVersion") ∧
      ((Linux.libgit2dart_plugin_handle_method_call uname self
          { name := m, args := args }).2 = [Linux.FlMethodResponse.not_implemented]
        ↔ (Windows.HandleMethodCall host this { method_name := m, arguments := arguments }
          Windows.MethodResult.fresh).2.replies = [Windows.Reply.NotImplemented])) := by
  have hL : (Linux.libgit2dart_plugin_handle_method_call uname self
        { name := m, args := args }).2 = [Linux.FlMethodResponse.not_implemented]
      ↔ c_str m ≠ bytes "getPlatformVersion" := by
    by_cases h : c_str m = bytes "getPlatformVersion"
    · rw [Linux.linux_handle_version uname self ⟨m, args⟩ h]
      simp [h]
    · rw [Linux.linux_handle_other uname self ⟨m, args⟩ h]
      simp [h]
  have hW : (Windows.HandleMethodCall host this { method_name := m, arguments := arguments }
        Windows.MethodResult.fresh).2.replies = [Windows.Reply.NotImplemented]
      ↔ m ≠ bytes "getPlatformVersion" := by
    by_cases h : m = bytes "getPlatformVersion"
    · rw [Windows.windows_handle_version host this _ _ h]
      simp [h, Windows.MethodResult.fresh]
    · rw [Windows.windows_handle_other host this _ _ h]
      simp [h, Windows.MethodResult.fresh]
  refine ⟨hW, hL, fun hm => ?_⟩
  have hL2 := hL
  rw [c_str_of_nul_free m hm] at hL2
  exact ⟨hL2, hL2.trans hW.symm⟩

/-- Names that differ from `"getPlatformVersion"` in case, by being a proper
prefix, or by trailing characters are not implemented on either platform. -/
theorem not_implemented_iff_other_name_witness :
    ((∀ b ∈ bytes "GetPlatformVersion", b ≠ 0) ∧
      (Linux.libgit2dart_plugin_handle_method_call Linux.uname_failed
        { parent_instance := { ref_count := 1 } }
        { name := bytes "GetPlatformVersion", args := Linux.FlValue.null }).2
        = [Linux.FlMethodResponse.not_implemented] ∧
      (Windows.HandleMethodCall
        { IsWindows10OrGreater := true, IsWindows8OrGreater := true, IsWindows7OrGreater := true }
        {} { method_name := bytes "GetPlatformVersion", arguments := Windows.EncodableValue.null }
        Windows.MethodResult.fresh).2.replies = [Windows.Reply.NotImplemented]) ∧
    ((∀ b ∈ bytes "getPlatform", b ≠ 0) ∧
      (Linux.libgit2dart_plugin_handle_method_call Linux.uname_failed
        { parent_instance := { ref_count := 1 } }
        { name := bytes "getPlatform", args := Linux.FlValue.null }).2
        = [Linux.FlMethodResponse.not_implemented] ∧
      (Windows.HandleMethodCall
        { IsWindows10OrGreater := true, IsWindows8OrGreater := true, IsWindows7OrGreater := true }
        {} { method_name := bytes "getPlatform", arguments := Windows.EncodableValue.null }
        Windows.MethodResult.fresh).2.replies = [Windows.Reply.NotImplemented]) ∧
    ((∀ b ∈ bytes "getPlatformVersion2", b ≠ 0) ∧
      (Linux.libgit2dart_plugin_handle_method_call Linux.uname_failed
        { parent_instance := { ref_count := 1 } }
        { name := bytes "getPlatformVersion2", args := Linux.FlValue.null }).2
        = [Linux.FlMethodResponse.not_implemented] ∧
      (Windows.HandleMethodCall
        { IsWindows10OrGreater := true, IsWindows8OrGreater := true, IsWindows7OrGreater := true }
        {} { method_name := bytes "getPlatformVersion2", arguments := Windows.EncodableValue.null }
        Windows.MethodResult.fresh).2.replies = [Windows.Reply.NotImplemented]) :=
  ⟨⟨by decide,
    ((not_implemented_iff_other_name (bytes "GetPlatformVersion") Linux.uname_failed
      { parent_instance := { ref_count := 1 } } Linux.FlValue.null
      { IsWindows10OrGreater := true, IsWindows8OrGreater := true, IsWindows7OrGreater := true }
      {} Windows.EncodableValue.null).2.2 (by decide)).1.2 (by decide),
    (not_implemented_iff_other_name (bytes "GetPlatformVersion") Linux.uname_failed
      { parent_instance := { ref_count := 1 } } Linux.FlValue.null
      { IsWindows10OrGreater := true, IsWindows8OrGreater := true, IsWindows7OrGreater := true }
      {} Windows.EncodableValue.null).1.2 (by decide)⟩,
   ⟨by decide,
    ((not_implemented_iff_other_name (bytes "getPlatform") Linux.uname_failed
      { parent_instance := { ref_count := 1 } } Linux.FlValue.null
      { IsWindows10OrGreater := true, IsWindows8OrGreater := true, IsWindows7OrGreater := true }
      {} Windows.EncodableValue.null).2.2 (by decide)).1.2 (by decide),
    (not_implemented_iff_other_name (bytes "getPlatform") Linux.uname_failed
      { parent_instance := { ref_count := 1 } } Linux.FlValue.null
      { IsWindows10OrGreater := true, IsWindows8OrGreater := true, IsWindows7OrGreater := true }
      {} Windows.EncodableValue.null).1.2 (by decide)⟩,
   ⟨by decide,
    ((not_implemented_iff_other_name (bytes "getPlatformVersion2") Linux.uname_failed
      { parent_instance := { ref_count := 1 } } Linux.FlValue.null
      { IsWindows10OrGreater := true, IsWindows8OrGreater := true, IsWindows7OrGreater := true }
      {} Windows.EncodableValue.null).2.2 (by decide)).1.2 (by decide),
    (not_implemented_iff_other_name (bytes "getPlatformVersion2") Linux.uname_failed
      { parent_instance := { ref_count := 1 } } Linux.FlValue.null
      { IsWindows10OrGreater := true, IsWindows8OrGreater := true, IsWindows7OrGreater := true }
      {} Windows.EncodableValue.null).1.2 (by decide)⟩⟩

/-- C1 as stated fails at the name `"getPlatformVersion"` followed by a NUL
byte and `x`: the name is not `"getPlatformVersion"` and has extra trailing
bytes, the Windows handler answers not-implemented, but the Linux handler,
whose `strcmp` stops at the NUL, answers with the success response
`"Linux "`; so the Linux answer is not not-implemented although the name
differs, and the two handlers classify this name differently. -/
theorem not_implemented_iff_other_name_fails_at_nul :
    bytes "getPlatformVersion" ++ [0, 120] ≠ bytes "getPlatformVersion" ∧
    (Linux.libgit2dart_plugin_handle_method_call Linux.uname_failed
        { parent_instance := { ref_count := 1 } }
        { name := bytes "getPlatformVersion" ++ [0, 120], args := Linux.FlValue.null }).2
      = [Linux.FlMethodResponse.success (Linux.FlValue.string (bytes "Linux "))] ∧
    (Windows.HandleMethodCall
        { IsWindows10OrGreater := true, IsWindows8OrGreater := true, IsWindows7OrGreater := true }
        {} { method_name := bytes "getPlatformVersion" ++ [0, 120],
             arguments := Windows.EncodableValue.null }
        Windows.MethodResult.fresh).2.replies = [Windows.Reply.NotImplemented] ∧
    ¬ ((Linux.libgit2dart_plugin_handle_method_call Linux.uname_failed
          { parent_instance := { ref_count := 1 } }
          { name := bytes "getPlatformVersion" ++ [0, 120], args := Linux.FlValue.null }).2
        = [Linux.FlMethodResponse.not_implemented]
      ↔ bytes "getPlatformVersion" ++ [0, 120] ≠ bytes "getPlatformVersion") ∧
    ¬ ((Linux.libgit2dart_plugin_handle_method_call Linux.uname_failed
          { parent_instance := { ref_count := 1 } }
          { name := bytes "getPlatformVersion" ++ [0, 120], args := Linux.FlValue.null }).2
        = [Linux.FlMethodResponse.not_implemented]
      ↔ (Windows.HandleMethodCall
          { IsWindows10OrGreater := true, IsWindows8OrGreater := true,
            IsWindows7OrGreater := true }
          {} { method_name := bytes "getPlatformVersion" ++ [0, 120],
               arguments := Windows.EncodableValue.null }
          Windows.MethodResult.fresh).2.replies = [Windows.Reply.NotImplemented]) := by
  decide

/-- C2: calling `"getPlatformVersion"` yields a success response carrying a
non-empty string that starts with the platform name: `"Linux"` on Linux
whatever `uname` does (a failed `uname` that leaves the zeroed struct
untouched included), `"Windows"` on Windows whatever the three version
predicates answer. -/
theorem version_prefixed_with_platform :
    (∀ (uname : Linux.Uname) (self : Linux.Libgit2dartPlugin) (args : Linux.FlValue),
      ∃ s, (Linux.libgit2dart_plugin_handle_method_call uname self
          { name := bytes "getPlatformVersion", args := args }).2
          = [Linux.FlMethodResponse.success (Linux.FlValue.string s)]
        ∧ s ≠ [] ∧ bytes "Linux" <+: s) ∧
    (∀ (self : Linux.Libgit2dartPlugin) (args : Linux.FlValue),
      ∃ s, (Linux.libgit2dart_plugin_handle_method_call Linux.uname_failed self
          { name := bytes "getPlatformVersion", args := args }).2
          = [Linux.FlMethodResponse.success (Linux.FlValue.string s)]
        ∧ s ≠ [] ∧ bytes "Linux" <+: s) ∧
    (∀ (host : Windows.VersionHelpers) (this : Windows.Libgit2dartPlugin)
      (arguments : Windows.EncodableValue),
      ∃ s, (Windows.HandleMethodCall host this
          { method_name := bytes "getPlatformVersion", arguments := arguments }
          Windows.MethodResult.fresh).2.replies
          = [Windows.Reply.Success (Windows.EncodableValue.string s)]
        ∧ s ≠ [] ∧ bytes "Windows" <+: s) := by
  have hlin : ∀ (uname : Linux.Uname) (self : Linux.Libgit2dartPlugin) (args : Linux.FlValue),
      ∃ s, (Linux.libgit2dart_plugin_handle_method_call uname self
          { name := bytes "getPlatformVersion", args := args }).2
          = [Linux.FlMethodResponse.success (Linux.FlValue.string s)]
        ∧ s ≠ [] ∧ bytes "Linux" <+: s := by
    intro uname self args
    refine ⟨bytes "Linux " ++ c_str (uname Linux.utsname.zero).2.version_ptr, ?_, ?_, ?_⟩
    · rw [Linux.linux_handle_version uname self _ c_str_getPlatformVersion]
    · simp [bytes]
    · exact ⟨32 :: c_str (uname Linux.utsname.zero).2.version_ptr, by simp [bytes]⟩
  refine ⟨hlin, hlin Linux.uname_failed, ?_⟩
  intro host this arguments
  rw [Windows.windows_handle_version host this _ _ rfl]
  obtain ⟨w10, w8, w7⟩ := host
  cases w10 <;> cases w8 <;> cases w7
  · exact ⟨bytes "Windows ", rfl, by decide, ⟨bytes " ", by decide⟩⟩
  · exact ⟨bytes "Windows 7", rfl, by decide, ⟨bytes " 7", by decide⟩⟩
  · exact ⟨bytes "Windows 8", rfl, by decide, ⟨bytes " 8", by decide⟩⟩
  · exact ⟨bytes "Windows 8", rfl, by decide, ⟨bytes " 8", by decide⟩⟩
  · exact ⟨bytes "Windows 10+", rfl, by decide, ⟨bytes " 10+", by decide⟩⟩
  · exact ⟨bytes "Windows 10+", rfl, by decide, ⟨bytes " 10+", by decide⟩⟩
  · exact ⟨bytes "Windows 10+", rfl, by decide, ⟨bytes " 10+", by decide⟩⟩
  · exact ⟨bytes "Windows 10+", rfl, by decide, ⟨bytes " 10+", by decide⟩⟩

/-- C4: no state is shared across calls. On each platform the handler leaves
the plugin object as it found it, and the response to a call is determined by
the method name and the result of the system query alone: two calls with the
same name, made with any arguments, on any plugin object, after any earlier
calls on the channel, get equal responses when `uname` leaves the same struct
(Linux) or the version predicates answer the same (Windows). -/
theorem response_depends_on_name_and_query (name : List Nat)
    (u1 u2 : Linux.Uname) (hu : (u1 Linux.utsname.zero).2 = (u2 Linux.utsname.zero).2)
    (self1 self2 : Linux.Libgit2dartPlugin) (args1 args2 : Linux.FlValue)
    (earlier1 earlier2 : List (Linux.Uname × Linux.FlMethodCall))
    (host : Windows.VersionHelpers) (this1 this2 : Windows.Libgit2dartPlugin)
    (arguments1 arguments2 : Windows.EncodableValue)
    (before1 before2 : List (Windows.VersionHelpers × Windows.MethodCall)) :
    ((Linux.libgit2dart_plugin_handle_method_call u1 self1 { name := name, args := args1 }).1
        = self1 ∧
     (Linux.libgit2dart_plugin_handle_method_call u1 self1 { name := name, args := args1 }).2
        = (Linux.libgit2dart_plugin_handle_method_call u2 self2
            { name := name, args := args2 }).2 ∧
     (Linux.channel_run self1 (earlier1 ++ [(u1, { name := name, args := args1 })])).getLast?
        = (Linux.channel_run self2 (earlier2 ++ [(u2, { name := name, args := args2 })])).getLast? ∧
     (Linux.channel_run self1 (earlier1 ++ [(u1, { name := name, args := args1 })])).getLast?
        = some (Linux.libgit2dart_plugin_handle_method_call u2 self2
            { name := name, args := args2 }).2) ∧
    ((Windows.HandleMethodCall host this1 { method_name := name, arguments := arguments1 }
        Windows.MethodResult.fresh).1 = this1 ∧
     (Windows.HandleMethodCall host this1 { method_name := name, arguments := arguments1 }
        Windows.MethodResult.fresh).2
        = (Windows.HandleMethodCall host this2 { method_name := name, arguments := arguments2 }
            Windows.MethodResult.fresh).2 ∧
     (Windows.channel_run this1
        (before1 ++ [(host, { method_name := name, arguments := arguments1 })])).getLast?
        = (Windows.channel_run this2
            (before2 ++ [(host, { method_name := name, arguments := arguments2 })])).getLast? ∧
     (Windows.channel_run this1
        (before1 ++ [(host, { method_name := name, arguments := arguments1 })])).getLast?
        = some (Windows.HandleMethodCall host this2
            { method_name := name, arguments := arguments2 } Windows.MethodResult.fresh).2.replies) := by
  have hL : ∀ (u : Linux.Uname) (p : Linux.Libgit2dartPlugin) (a : Linux.FlValue),
      (u Linux.utsname.zero).2 = (u2 Linux.utsname.zero).2 →
      (Linux.libgit2dart_plugin_handle_method_call u p { name := name, args := a }).1 = p ∧
      (Linux.libgit2dart_plugin_handle_method_call u p { name := name, args := a }).2
        = (Linux.libgit2dart_plugin_handle_method_call u2 self2
            { name := name, args := args2 }).2 := by
    intro u p a hu2
    by_cases h : c_str name = bytes "getPlatformVersion"
    · rw [Linux.linux_handle_version u p ⟨name, a⟩ h, Linux.linux_handle_version u2 self2 ⟨name, args2⟩ h, hu2]
      exact ⟨rfl, rfl⟩
    · rw [Linux.linux_handle_other u p ⟨name, a⟩ h, Linux.linux_handle_other u2 self2 ⟨name, args2⟩ h]
      exact ⟨rfl, rfl⟩
  have hW : ∀ (p : Windows.Libgit2dartPlugin) (a : Windows.EncodableValue),
      (Windows.HandleMethodCall host p { method_name := name, arguments := a }
        Windows.MethodResult.fresh).1 = p ∧
      (Windows.HandleMethodCall host p { method_name := name, arguments := a }
        Windows.MethodResult.fresh).2
        = (Windows.HandleMethodCall host this2 { method_name := name, arguments := arguments2 }
            Windows.MethodResult.fresh).2 := by
    intro p a
    by_cases h : name = bytes "getPlatformVersion"
    · rw [Windows.windows_handle_version host p ⟨name, a⟩ _ h,
        Windows.windows_handle_version host this2 ⟨name, arguments2⟩ _ h]
      exact ⟨rfl, rfl⟩
    · rw [Windows.windows_handle_other host p ⟨name, a⟩ _ h,
        Windows.windows_handle_other host this2 ⟨name, arguments2⟩ _ h]
      exact ⟨rfl, rfl⟩
  have hrunL : ∀ (u : Linux.Uname) (p : Linux.Libgit2dartPlugin) (a : Linux.FlValue)
      (e : List (Linux.Uname × Linux.FlMethodCall)),
      (u Linux.utsname.zero).2 = (u2 Linux.utsname.zero).2 →
      (Linux.channel_run p (e ++ [(u, { name := name, args := a })])).getLast?
        = some (Linux.libgit2dart_plugin_handle_method_call u2 self2
            { name := name, args := args2 }).2 := by
    intro u p a e hu2
    rw [Linux.linux_channel_run_eq_map, List.map_append, List.map_cons, List.map_nil,
      List.getLast?_append]
    simp [(hL u p a hu2).2]
  have hrunW : ∀ (p : Windows.Libgit2dartPlugin) (a : Windows.EncodableValue)
      (e : List (Windows.VersionHelpers × Windows.MethodCall)),
      (Windows.channel_run p (e ++ [(host, { method_name := name, arguments := a })])).getLast?
        = some (Windows.HandleMethodCall host this2
            { method_name := name, arguments := arguments2 } Windows.MethodResult.fresh).2.replies := by
    intro p a e
    rw [Windows.windows_channel_run_eq_map, List.map_append, List.map_cons, List.map_nil,
      List.getLast?_append]
    simp [(hW p a).2]
  refine ⟨⟨(hL u1 self1 args1 hu).1, (hL u1 self1 args1 hu).2, ?_, hrunL u1 self1 args1 earlier1 hu⟩,
    ⟨(hW this1 arguments1).1, (hW this1 arguments1).2, ?_, hrunW this1 arguments1 before1⟩⟩
  · rw [hrunL u1 self1 args1 earlier1 hu, hrunL u2 self2 args2 earlier2 rfl]
  · rw [hrunW this1 arguments1 before1, hrunW this2 arguments2 before2]

/-- Two `getPlatformVersion` calls with different arguments, on different
plugin objects, one after an earlier call and one first on its channel, under
two `uname` calls that return different values and leave the same struct. -/
theorem response_depends_on_name_and_query_witness :
    (Linux.uname_sample Linux.utsname.zero).2
      = ((fun u => (1, (Linux.uname_sample u).2) : Linux.Uname) Linux.utsname.zero).2 ∧
    (Linux.channel_run { parent_instance := { ref_count := 1 } }
        ([(Linux.uname_failed, { name := bytes "status", args := Linux.FlValue.bool true })] ++
          [(Linux.uname_sample,
            { name := bytes "getPlatformVersion", args := Linux.FlValue.int 3 })])).getLast?
      = some (Linux.libgit2dart_plugin_handle_method_call
          (fun u => (1, (Linux.uname_sample u).2))
          { parent_instance := { ref_count := 5 } }
          { name := bytes "getPlatformVersion", args := Linux.FlValue.null }).2 :=
  ⟨rfl,
   (response_depends_on_name_and_query (bytes "getPlatformVersion")
      Linux.uname_sample (fun u => (1, (Linux.uname_sample u).2)) rfl
      { parent_instance := { ref_count := 1 } } { parent_instance := { ref_count := 5 } }
      (Linux.FlValue.int 3) Linux.FlValue.null
      [(Linux.uname_failed, { name := bytes "status", args := Linux.FlValue.bool true })] []
      { IsWindows10OrGreater := true, IsWindows8OrGreater := true, IsWindows7OrGreater := true }
      {} {} Windows.EncodableValue.null Windows.EncodableValue.null [] []).1.2.2.2⟩

/-- C5: on Windows the string returned for `"getPlatformVersion"` is chosen by
the first predicate that holds in the order 10, 8, 7: `"Windows 10+"`, else
`"Windows 8"`, else `"Windows 7"`, else the bare `"Windows "` with its
trailing space. It is always one of these four, each of the four occurs, and
when `IsWindows10OrGreater` holds the result is `"Windows 10+"` whatever the
other two predicates answer. -/
theorem windows_version_string :
    (∀ (host : Windows.VersionHelpers) (this : Windows.Libgit2dartPlugin)
      (arguments : Windows.EncodableValue),
      (Windows.HandleMethodCall host this
          { method_name := bytes "getPlatformVersion", arguments := arguments }
          Windows.MethodResult.fresh).2.replies
        = [Windows.Reply.Success (Windows.EncodableValue.string
            (if host.IsWindows10OrGreater then bytes "Windows 10+"
             else if host.IsWindows8OrGreater then bytes "Windows 8"
             else if host.IsWindows7OrGreater then bytes "Windows 7"
             else bytes "Windows "))]) ∧
    (∀ (host : Windows.VersionHelpers) (this : Windows.Libgit2dartPlugin)
      (arguments : Windows.EncodableValue),
      ∃ s, s ∈ [bytes "Windows 10+", bytes "Windows 8", bytes "Windows 7", bytes "Windows "] ∧
        (Windows.HandleMethodCall host this
          { method_name := bytes "getPlatformVersion", arguments := arguments }
          Windows.MethodResult.fresh).2.replies
        = [Windows.Reply.Success (Windows.EncodableValue.string s)]) ∧
    (∀ (w8 w7 : Bool) (this : Windows.Libgit2dartPlugin) (arguments : Windows.EncodableValue),
      (Windows.HandleMethodCall
          { IsWindows10OrGreater := true, IsWindows8OrGreater := w8, IsWindows7OrGreater := w7 }
          this { method_name := bytes "getPlatformVersion", arguments := arguments }
          Windows.MethodResult.fresh).2.replies
        = [Windows.Reply.Success (Windows.EncodableValue.string (bytes "Windows 10+"))]) ∧
    (∀ (w7 : Bool) (this : Windows.Libgit2dartPlugin) (arguments : Windows.EncodableValue),
      (Windows.HandleMethodCall
          { IsWindows10OrGreater := false, IsWindows8OrGreater := true, IsWindows7OrGreater := w7 }
          this { method_name := bytes "getPlatformVersion", arguments := arguments }
          Windows.MethodResult.fresh).2.replies
        = [Windows.Reply.Success (Windows.EncodableValue.string (bytes "Windows 8"))]) ∧
    (∀ (this : Windows.Libgit2dartPlugin) (arguments : Windows.EncodableValue),
      (Windows.HandleMethodCall
          { IsWindows10OrGreater := false, IsWindows8OrGreater := false,
            IsWindows7OrGreater := true }
          this { method_name := bytes "getPlatformVersion", arguments := arguments }
          Windows.MethodResult.fresh).2.replies
        = [Windows.Reply.Success (Windows.EncodableValue.string (bytes "Windows 7"))]) ∧
    (∀ (this : Windows.Libgit2dartPlugin) (arguments : Windows.EncodableValue),
      (Windows.HandleMethodCall
          { IsWindows10OrGreater := false, IsWindows8OrGreater := false,
            IsWindows7OrGreater := false }
          this { method_name := bytes "getPlatformVersion", arguments := arguments }
          Windows.MethodResult.fresh).2.replies
        = [Windows.Reply.Success (Windows.EncodableValue.string (bytes "Windows "))]) ∧
    (bytes "Windows ").getLast? = some 32 ∧
    [bytes "Windows 10+", bytes "Windows 8", bytes "Windows 7", bytes "Windows "].Nodup := by
  have key : ∀ (host : Windows.VersionHelpers) (this : Windows.Libgit2dartPlugin)
      (arguments : Windows.EncodableValue),
      (Windows.HandleMethodCall host this
          { method_name := bytes "getPlatformVersion", arguments := arguments }
          Windows.MethodResult.fresh).2.replies
        = [Windows.Reply.Success (Windows.EncodableValue.string
            (if host.IsWindows10OrGreater then bytes "Windows 10+"
             else if host.IsWindows8OrGreater then bytes "Windows 8"
             else if host.IsWindows7OrGreater then bytes "Windows 7"
             else bytes "Windows "))] := by
    intro host this arguments
    rw [Windows.windows_handle_version host this _ _ rfl]
    rfl
  refine ⟨key, ?_, ?_, ?_, ?_, ?_, by decide, by decide⟩
  · intro host this arguments
    refine ⟨_, ?_, key host this arguments⟩
    obtain ⟨w10, w8, w7⟩ := host
    cases w10 <;> cases w8 <;> cases w7 <;> simp
  · intro w8 w7 this arguments
    rw [key]
    rfl
  · intro w7 this arguments
    rw [key]
    rfl
  · intro this arguments
    rw [key]
    rfl
  · intro this arguments
    rw [key]
    rfl

/-- C6: on Linux, when the `version` field of the struct after the `uname`
call holds the NUL-terminated string `v`, the string returned for
`"getPlatformVersion"` is `"Linux "` followed by `v`. The struct is zeroed
before the call and the return value of `uname` is not looked at, so a `uname`
that fails (or returns anything else) and writes nothing yields exactly
`"Linux "`, six bytes long, in a success response. -/
theorem linux_version_string :
    (∀ (uname : Linux.Uname) (self : Linux.Libgit2dartPlugin) (args : Linux.FlValue)
      (v rest : List Nat), (∀ b ∈ v, b ≠ 0) →
      (uname Linux.utsname.zero).2.version = v ++ 0 :: rest →
      Linux.libgit2dart_plugin_handle_method_call uname self
          { name := bytes "getPlatformVersion", args := args }
        = (self, [Linux.FlMethodResponse.success (Linux.FlValue.string (bytes "Linux " ++ v))])) ∧
    (∀ (ret : Int) (self : Linux.Libgit2dartPlugin) (args : Linux.FlValue),
      Linux.libgit2dart_plugin_handle_method_call (fun u => (ret, u)) self
          { name := bytes "getPlatformVersion", args := args }
        = (self, [Linux.FlMethodResponse.success (Linux.FlValue.string (bytes "Linux "))])) ∧
    (bytes "Linux ").length = 6 := by
  have main : ∀ (uname : Linux.Uname) (self : Linux.Libgit2dartPlugin) (args : Linux.FlValue)
      (v rest : List Nat), (∀ b ∈ v, b ≠ 0) →
      (uname Linux.utsname.zero).2.version = v ++ 0 :: rest →
      Linux.libgit2dart_plugin_handle_method_call uname self
          { name := bytes "getPlatformVersion", args := args }
        = (self, [Linux.FlMethodResponse.success
            (Linux.FlValue.string (bytes "Linux " ++ v))]) := by
    intro uname self args v rest hv hfield
    rw [Linux.linux_handle_version uname self _ c_str_getPlatformVersion]
    have hptr : c_str (uname Linux.utsname.zero).2.version_ptr = v := by
      rw [Linux.utsname.version_ptr, hfield, List.append_assoc, List.cons_append]
      exact c_str_append_nul v _ hv
    rw [hptr]
  refine ⟨main, ?_, by decide⟩
  intro ret self args
  have hzero : Linux.utsname.zero.version = [] ++ 0 :: List.replicate 64 0 := by decide
  have h := main (fun u => (ret, u)) self args [] (List.replicate 64 0) (by simp) hzero
  simpa using h

/-- A successful `uname` that reports the kernel version `#1 SMP`. -/
theorem linux_version_string_witness :
    (∀ b ∈ bytes "#1 SMP", b ≠ 0) ∧
    (Linux.uname_sample Linux.utsname.zero).2.version
      = bytes "#1 SMP" ++ 0 :: List.replicate 58 0 ∧
    Linux.libgit2dart_plugin_handle_method_call Linux.uname_sample
        { parent_instance := { ref_count := 1 } }
        { name := bytes "getPlatformVersion", args := Linux.FlValue.null }
      = ({ parent_instance := { ref_count := 1 } },
          [Linux.FlMethodResponse.success (Linux.FlValue.string (bytes "Linux #1 SMP"))]) :=
  ⟨by decide, by decide,
   linux_version_string.1 Linux.uname_sample { parent_instance := { ref_count := 1 } }
     Linux.FlValue.null (bytes "#1 SMP") (List.replicate 58 0) (by decide) (by decide)⟩

end Libgit2dart
